import Mathlib

/-!
Verification of the circuit residual model of this repository: the
per-component equations (Ohm resistor, Shockley diode, Kirchhoff node
residual) defined in circuit.py and circuitBat.py, the analytic partial
derivatives declared in circuitBat.py, and the wiring of the base circuit.
Floating-point values are modelled as exact rationals where the code only
adds, subtracts and divides, and as real numbers where the exponential
function appears or derivatives are stated.
-/

/-- Embeds Resistor.compute, identical in circuit.py (lines 19-21) and
circuitBat.py (lines 27-29): deltaV = V_in - V_out; I = deltaV / R. Generic
over a division ring so it can be evaluated on rationals and differentiated
on reals. -/
def Resistor.compute {K : Type} [DivisionRing K] (V_in V_out R : K) : K :=
  (V_in - V_out) / R

/-- Embeds the analytic partial dI/dV_in declared in Resistor.setup of
circuitBat.py (line 24): val = 1/R. -/
noncomputable def Resistor.dI_dV_in (R : ℝ) : ℝ := 1 / R

/-- Embeds the analytic partial dI/dV_out declared in Resistor.setup of
circuitBat.py (line 25): val = -1/R. -/
noncomputable def Resistor.dI_dV_out (R : ℝ) : ℝ := -1 / R

/-- Embeds Diode.compute of circuitBat.py (lines 53-57):
I = Is * (exp((V_in - V_out) / Vt) - 1). -/
noncomputable def Diode.compute (V_in V_out Is Vt : ℝ) : ℝ :=
  Is * (Real.exp ((V_in - V_out) / Vt) - 1)

/-- Embeds Diode.compute_partials of circuitBat.py (lines 59-66): with
I = Is * exp(deltaV / Vt), the Jacobian entries are J[I, V_in] = I/Vt and
J[I, V_out] = -I/Vt, returned here as a pair (d/dV_in, d/dV_out). -/
noncomputable def Diode.compute_partials (V_in V_out Is Vt : ℝ) : ℝ × ℝ :=
  let I := Is * Real.exp ((V_in - V_out) / Vt)
  (I / Vt, (-I) / Vt)

/-- Embeds the set of top-level names bound in the module circuit.py: the
single import statement (line 1, openmdao.api as om) and the class and
problem definitions. The module never imports numpy, so the name np is
absent. -/
def circuitPy.module_names : List String :=
  ["om", "Resistor", "Diode", "Node", "Circuit", "prob", "model"]

/-- Embeds Diode.compute of circuit.py (lines 40-44): the body evaluates
Is * (np.exp(deltaV / Vt) - 1), where the name np must resolve among the
module top-level names; when it does not, Python raises a NameError instead
of producing a value. -/
noncomputable def circuitPy.Diode.compute (V_in V_out Is Vt : ℝ) :
    Except String ℝ :=
  if "np" ∈ circuitPy.module_names then
    Except.ok (Is * (Real.exp ((V_in - V_out) / Vt) - 1))
  else
    Except.error "NameError: name np is not defined"

/-- Embeds Node.apply_nonlinear of circuit.py (lines 69-74): the residual
starts at 0, adds each incoming current I_in:i for i < n_in, then ADDS each
outgoing current I_out:i for i < n_out. The node state V (the outputs
vector) is passed but never read. -/
def circuitPy.Node.apply_nonlinear (n_in n_out : ℕ) (I_in I_out : ℕ → ℚ)
    (V : ℚ) : ℚ :=
  (List.range n_out).foldl (fun r i => r + I_out i)
    ((List.range n_in).foldl (fun r i => r + I_in i) 0)

/-- Embeds Node.apply_nonlinear of circuitBat.py (lines 91-96): the residual
starts at 0, adds each incoming current I_in:i for i < n_in, then SUBTRACTS
each outgoing current I_out:i for i < n_out. The node state V is passed but
never read. -/
def circuitBatPy.Node.apply_nonlinear (n_in n_out : ℕ) (I_in I_out : ℕ → ℚ)
    (V : ℚ) : ℚ :=
  (List.range n_out).foldl (fun r i => r - I_out i)
    ((List.range n_in).foldl (fun r i => r + I_in i) 0)

/-- Embeds the connect calls of Circuit.setup in circuit.py (lines 87-93),
as (source variable, target variable) pairs; a connect with a list of
targets contributes one pair per target. -/
def circuitPy.Circuit.connections : List (String × String) :=
  [("n1.V", "R1.V_in"), ("n1.V", "R2.V_in"),
   ("R1.I", "n1.I_out:0"), ("R2.I", "n1.I_out:1"),
   ("n2.V", "R2.V_out"), ("n2.V", "D1.V_in"),
   ("R2.I", "n2.I_in:0"), ("D1.I", "n2.I_out:0")]

/-- Embeds the promotes_inputs renamings of Circuit.setup in circuit.py
(lines 79-84), as (local input name, promoted group-level name) pairs. -/
def circuitPy.Circuit.promotions : List (String × String) :=
  [("n1.I_in:0", "I_in"), ("R1.V_out", "Vg"), ("D1.V_out", "Vg")]

/-- Embeds the ExecComp expression of circuitBat.py line 132:
dV = V1 - V2. -/
def battDeltaV (V1 V2 : ℚ) : ℚ := V1 - V2

/-- Embeds the battery voltage source of circuitBat.py line 127: an
IndepVarComp with V = 1.5 volts. -/
def battV : ℚ := 1.5

/-- Modelled from the spec: the BalanceComp added at circuitBat.py lines
128-129 comes from the external solver framework, whose code is not in this
repository. The spec describes it as an algebraic balance equation driving
lhs = rhs (the voltage across the circuit must match the target battery
voltage), so its residual is lhs - rhs. -/
def battBalanceResidual (lhs rhs : ℚ) : ℚ := lhs - rhs

/-- Helper: a left fold that adds f i for each list element equals the start
value plus the sum of the mapped list. -/
theorem foldl_add_eq (f : ℕ → ℚ) (l : List ℕ) (s : ℚ) :
    l.foldl (fun r i => r + f i) s = s + (l.map f).sum := by
  induction l generalizing s with
  | nil => simp
  | cons i l ih => simp [List.foldl_cons, ih, add_assoc]

/-- Helper: a left fold that subtracts f i for each list element equals the
start value minus the sum of the mapped list. -/
theorem foldl_sub_eq (f : ℕ → ℚ) (l : List ℕ) (s : ℚ) :
    l.foldl (fun r i => r - f i) s = s - (l.map f).sum := by
  induction l generalizing s with
  | nil => simp
  | cons i l ih => simp [List.foldl_cons, ih, sub_sub]

/-- Helper: closed form of the circuit.py node residual, sum of incoming
plus sum of outgoing currents. -/
theorem circuitPy_node_residual_eq (n_in n_out : ℕ) (I_in I_out : ℕ → ℚ)
    (V : ℚ) :
    circuitPy.Node.apply_nonlinear n_in n_out I_in I_out V =
      ((List.range n_in).map I_in).sum + ((List.range n_out).map I_out).sum := by
  unfold circuitPy.Node.apply_nonlinear
  rw [foldl_add_eq, foldl_add_eq]
  ring

/-- Helper: closed form of the circuitBat.py node residual, sum of incoming
minus sum of outgoing currents. -/
theorem circuitBatPy_node_residual_eq (n_in n_out : ℕ) (I_in I_out : ℕ → ℚ)
    (V : ℚ) :
    circuitBatPy.Node.apply_nonlinear n_in n_out I_in I_out V =
      ((List.range n_in).map I_in).sum - ((List.range n_out).map I_out).sum := by
  unfold circuitBatPy.Node.apply_nonlinear
  rw [foldl_add_eq, foldl_sub_eq]
  ring

/-- C1: the two files disagree on the node residual: there is an input with
a nonzero outgoing current on which circuit.py (which adds outgoing
currents) and circuitBat.py (which subtracts them) return different
residuals, while the two residuals agree whenever every outgoing current is
zero. -/
theorem C1_node_residual_conventions_differ :
    (∃ (n_in n_out : ℕ) (I_in I_out : ℕ → ℚ) (V : ℚ),
      (∃ j, j < n_out ∧ I_out j ≠ 0) ∧
      circuitPy.Node.apply_nonlinear n_in n_out I_in I_out V ≠
        circuitBatPy.Node.apply_nonlinear n_in n_out I_in I_out V) ∧
    (∀ (n_in n_out : ℕ) (I_in I_out : ℕ → ℚ) (V : ℚ),
      (∀ j, j < n_out → I_out j = 0) →
      circuitPy.Node.apply_nonlinear n_in n_out I_in I_out V =
        circuitBatPy.Node.apply_nonlinear n_in n_out I_in I_out V) := by
  constructor
  · refine ⟨1, 1, fun _ => 0, fun _ => 1, 5, ⟨0, by norm_num, by norm_num⟩, ?_⟩
    rw [circuitPy_node_residual_eq, circuitBatPy_node_residual_eq]
    norm_num [List.range_succ]
  · intro n_in n_out I_in I_out V h
    rw [circuitPy_node_residual_eq, circuitBatPy_node_residual_eq]
    have hz : ((List.range n_out).map I_out).sum = 0 := by
      apply List.sum_eq_zero
      intro x hx
      rcases List.mem_map.mp hx with ⟨j, hj, rfl⟩
      exact h j (List.mem_range.mp hj)
    rw [hz]
    ring

/-- C1 witness: a concrete agreement instance with every outgoing current
zero. -/
theorem C1_node_residual_conventions_differ_witness :
    circuitPy.Node.apply_nonlinear 2 2 (fun i => (i : ℚ)) (fun _ => 0) 3 =
      circuitBatPy.Node.apply_nonlinear 2 2 (fun i => (i : ℚ)) (fun _ => 0) 3 :=
  C1_node_residual_conventions_differ.2 2 2 (fun i => (i : ℚ)) (fun _ => 0) 3
    (fun _ _ => rfl)

/-- C2: for all terminal voltages and every R > 0, Resistor.compute returns
(V_in - V_out) / R exactly; with R = 100 and V_in - V_out = 5 the computed
current is 0.05. -/
theorem C2_resistor_ohms_law (V_in V_out R : ℚ) (hR : 0 < R) :
    Resistor.compute V_in V_out R = (V_in - V_out) / R ∧
    (R = 100 → V_in - V_out = 5 → Resistor.compute V_in V_out R = 0.05) := by
  refine ⟨rfl, ?_⟩
  intro hR100 hdV
  rw [Resistor.compute, hdV, hR100]
  norm_num

/-- C2 witness: instantiated at R = 100, V_in = 5, V_out = 0. -/
theorem C2_resistor_ohms_law_witness :
    (0 : ℚ) < 100 ∧ Resistor.compute (5 : ℚ) 0 100 = 0.05 :=
  ⟨by norm_num, (C2_resistor_ohms_law 5 0 100 (by norm_num)).2 rfl (by norm_num)⟩

/-- C3: for all terminal voltages and every Is > 0, Vt > 0, Diode.compute
returns Is * (exp((V_in - V_out) / Vt) - 1); when V_in = V_out the computed
current is exactly 0. -/
theorem C3_diode_shockley (V_in V_out Is Vt : ℝ) (hIs : 0 < Is)
    (hVt : 0 < Vt) :
    Diode.compute V_in V_out Is Vt =
      Is * (Real.exp ((V_in - V_out) / Vt) - 1) ∧
    (V_in = V_out → Diode.compute V_in V_out Is Vt = 0) := by
  refine ⟨rfl, ?_⟩
  intro h
  simp [Diode.compute, h]

/-- C3 witness: instantiated at V_in = V_out = 2, Is = 1, Vt = 1. -/
theorem C3_diode_shockley_witness :
    (0 : ℝ) < 1 ∧ Diode.compute 2 2 1 1 = 0 :=
  ⟨by norm_num, (C3_diode_shockley 2 2 1 1 (by norm_num) (by norm_num)).2 rfl⟩

/-- C4: in circuit.py, node 1 (n_in = 1, n_out = 2) with I_in = 0.1 ADDS the
outgoing currents, so at the state satisfying the claimed balance
R1.I + R2.I = 0.1 (taking R1.I = R2.I = 0.05) the residual is 0.2, not
zero; the residual-zero state instead has R1.I + R2.I = -0.1, which is not
0.1; and the circuitBat.py residual does vanish on the claimed balance,
matching the Kirchhoff intent stated by the spec and the Node docstring. -/
theorem C4_base_node1_sign_bug :
    circuitPy.Node.apply_nonlinear 1 2 (fun _ => 1/10) (fun _ => 1/20) 0 =
      1/5 ∧
    (circuitPy.Node.apply_nonlinear 1 2 (fun _ => 1/10) (fun _ => -(1/20)) 0 =
      0 ∧ ((-(1/20) : ℚ) + -(1/20) ≠ 1/10)) ∧
    circuitBatPy.Node.apply_nonlinear 1 2 (fun _ => 1/10) (fun _ => 1/20) 0 =
      0 := by
  refine ⟨?_, ⟨?_, ?_⟩, ?_⟩ <;>
    norm_num [circuitPy_node_residual_eq, circuitBatPy_node_residual_eq,
      List.range_succ]

/-- C5: whenever the battery balance residual is zero, with lhs the ExecComp
output dV = V1 - V2 wired to V1 = circuit.n1.V and V2 = ground.V, and rhs
the battery voltage 1.5 V, the node-1 voltage exceeds ground by exactly
1.5 V. -/
theorem C5_battery_balance (n1V groundV : ℚ)
    (h : battBalanceResidual (battDeltaV n1V groundV) battV = 0) :
    n1V - groundV = 1.5 := by
  have h2 : n1V - groundV - 1.5 = 0 := by
    simpa [battBalanceResidual, battDeltaV, battV] using h
  linarith

/-- C5 witness: instantiated at n1V = 1.5, groundV = 0. -/
theorem C5_battery_balance_witness :
    battBalanceResidual (battDeltaV 1.5 0) battV = 0 ∧
    ((1.5 : ℚ) - 0 = 1.5) :=
  ⟨by norm_num [battBalanceResidual, battDeltaV, battV],
    C5_battery_balance 1.5 0 (by norm_num [battBalanceResidual, battDeltaV, battV])⟩

/-- C6: for every R > 0, the analytic resistor partials declared in the
circuitBat.py setup, 1/R and -1/R, are the exact derivatives of
Resistor.compute with respect to V_in and V_out at every input. -/
theorem C6_resistor_partials_exact (V_in V_out R : ℝ) (hR : 0 < R) :
    HasDerivAt (fun v => Resistor.compute v V_out R)
      (Resistor.dI_dV_in R) V_in ∧
    HasDerivAt (fun v => Resistor.compute V_in v R)
      (Resistor.dI_dV_out R) V_out := by
  constructor
  · have h := ((hasDerivAt_id V_in).sub_const V_out).div_const R
    simpa [Resistor.compute, Resistor.dI_dV_in] using h
  · have h := ((hasDerivAt_id V_out).const_sub V_in).div_const R
    simpa [Resistor.compute, Resistor.dI_dV_out, neg_div] using h

/-- C6 witness: instantiated at R = 100, V_in = 5, V_out = 0. -/
theorem C6_resistor_partials_exact_witness :
    (0 : ℝ) < 100 ∧
    HasDerivAt (fun v => Resistor.compute v (0 : ℝ) 100)
      (Resistor.dI_dV_in 100) 5 :=
  ⟨by norm_num, (C6_resistor_partials_exact 5 0 100 (by norm_num)).1⟩

/-- C7: Diode.compute_partials returns I/Vt and -I/Vt with
I = Is * exp((V_in - V_out) / Vt); the V_out entry is the exact negation of
the V_in entry, and for nonzero thermal voltage both entries equal the exact
derivatives of Diode.compute in V_in and V_out. -/
theorem C7_diode_partials_exact (V_in V_out Is Vt : ℝ) (hVt : Vt ≠ 0) :
    (Diode.compute_partials V_in V_out Is Vt).2 =
      -(Diode.compute_partials V_in V_out Is Vt).1 ∧
    HasDerivAt (fun v => Diode.compute v V_out Is Vt)
      ((Diode.compute_partials V_in V_out Is Vt).1) V_in ∧
    HasDerivAt (fun v => Diode.compute V_in v Is Vt)
      ((Diode.compute_partials V_in V_out Is Vt).2) V_out := by
  refine ⟨?_, ?_, ?_⟩
  · simp [Diode.compute_partials, neg_div]
  · have h :=
      ((((hasDerivAt_id V_in).sub_const V_out).div_const Vt).exp.sub_const
        1).const_mul Is
    have h2 : HasDerivAt (fun v => Is * (Real.exp ((v - V_out) / Vt) - 1))
        (Is * Real.exp ((V_in - V_out) / Vt) / Vt) V_in := by
      have e : Is * (Real.exp ((V_in - V_out) / Vt) * (1 / Vt)) =
          Is * Real.exp ((V_in - V_out) / Vt) / Vt := by
        ring
      exact e ▸ h
    exact h2
  · have h :=
      ((((hasDerivAt_id V_out).const_sub V_in).div_const Vt).exp.sub_const
        1).const_mul Is
    have h2 : HasDerivAt (fun v => Is * (Real.exp ((V_in - v) / Vt) - 1))
        ((-(Is * Real.exp ((V_in - V_out) / Vt))) / Vt) V_out := by
      have e : Is * (Real.exp ((V_in - V_out) / Vt) * (-1 / Vt)) =
          (-(Is * Real.exp ((V_in - V_out) / Vt))) / Vt := by
        ring
      exact e ▸ h
    exact h2

/-- C7 witness: instantiated at V_in = V_out = 0, Is = 1, Vt = 1. -/
theorem C7_diode_partials_exact_witness :
    (1 : ℝ) ≠ 0 ∧
    (Diode.compute_partials 0 0 1 1).2 = -(Diode.compute_partials 0 0 1 1).1 :=
  ⟨by norm_num, (C7_diode_partials_exact 0 0 1 1 (by norm_num)).1⟩

/-- C8 counterexample: R1.V_out is NOT connected to the node-2 voltage, so
the parenthetical of the claim (both R1 and R2 take node-2 voltage as
V_out) is false; R1.V_out is instead promoted to the ground voltage Vg. -/
theorem C8_counterexample_R1_Vout_not_n2 :
    ("n2.V", "R1.V_out") ∉ circuitPy.Circuit.connections ∧
    ("R1.V_out", "Vg") ∈ circuitPy.Circuit.promotions := by
  decide

/-- C8 (amended): node-1 voltage drives both resistor V_in terminals; only
R2 runs from node 1 into node 2 (R2.V_out is the node-2 voltage, while
R1.V_out is not); node 2 balances the R2 current as inflow against the
diode current as outflow; and Vg is the V_out terminal of both the diode
and resistor R1. -/
theorem C8_base_circuit_wiring :
    ("n1.V", "R1.V_in") ∈ circuitPy.Circuit.connections ∧
    ("n1.V", "R2.V_in") ∈ circuitPy.Circuit.connections ∧
    ("n2.V", "R2.V_out") ∈ circuitPy.Circuit.connections ∧
    ("n2.V", "R1.V_out") ∉ circuitPy.Circuit.connections ∧
    ("R2.I", "n2.I_in:0") ∈ circuitPy.Circuit.connections ∧
    ("D1.I", "n2.I_out:0") ∈ circuitPy.Circuit.connections ∧
    ("R1.V_out", "Vg") ∈ circuitPy.Circuit.promotions ∧
    ("D1.V_out", "Vg") ∈ circuitPy.Circuit.promotions := by
  decide

/-- C9: the name np is not among the names bound in circuit.py, so every
evaluation of its Diode.compute takes the NameError branch, for all
inputs. -/
theorem C9_base_diode_name_error :
    "np" ∉ circuitPy.module_names ∧
    ∀ (V_in V_out Is Vt : ℝ),
      circuitPy.Diode.compute V_in V_out Is Vt =
        Except.error "NameError: name np is not defined" :=
  ⟨by decide, fun _ _ _ _ => if_neg (by decide)⟩

/-- C10: the node residual in both files is independent of the node state V:
for every input-current assignment and any two values of V, the residual is
unchanged. -/
theorem C10_node_residual_independent_of_V (n_in n_out : ℕ)
    (I_in I_out : ℕ → ℚ) (V V' : ℚ) :
    circuitPy.Node.apply_nonlinear n_in n_out I_in I_out V =
      circuitPy.Node.apply_nonlinear n_in n_out I_in I_out V' ∧
    circuitBatPy.Node.apply_nonlinear n_in n_out I_in I_out V =
      circuitBatPy.Node.apply_nonlinear n_in n_out I_in I_out V' :=
  ⟨rfl, rfl⟩
